import Mathlib

/-!
Verification of the dmabuf buffer-allocation core
(`src/backend/allocator/dmabuf.rs`): the plane/descriptor data model, the
`DmabufBuilder`, the strong/weak handle ownership model over `Arc`, the
`AsDmabuf` export capability and the `DmabufAllocator` adapter with its
type-erased error.

Machine integers (`u32`, the fd numbers) are modelled as `Nat`; no claim
involves overflowing arithmetic on them.  `i32` sizes are modelled as `Int`.
-/

namespace Smithay

/-- Maximum amount of planes this implementation supports (`MAX_PLANES`). -/
def MAX_PLANES : Nat := 4

/-- Modelled from the spec: the `Modifier` type comes from the external
`drm-fourcc` crate (not part of this repository); per the spec it is a
vendor-specific code or one of the two sentinels `Invalid` / `Linear`. -/
inductive Modifier : Type where
  | Invalid : Modifier
  | Linear : Modifier
  | Vendor (code : Nat) : Modifier
deriving DecidableEq, Repr

/-- FourCC pixel-format code (`Fourcc`, external crate), an opaque code. -/
abbrev Fourcc := Nat

/-- `Size<i32, BufferCoords>`: width and height in buffer coordinates. -/
structure Size where
  w : Int
  h : Int
deriving DecidableEq, Repr

/-- `DmabufFlags`: a `u32` bitflag set (Y_INVERT = 1, INTERLACED = 2,
BOTTOM_FIRST = 4). -/
abbrev DmabufFlags := Nat

/-- One plane of a dmabuf (`struct Plane`): an owned file descriptor plus
layout metadata.  The fd is modelled by its raw descriptor number. -/
structure Plane where
  fd : Nat
  plane_idx : Nat
  offset : Nat
  stride : Nat
  modifier : Modifier
deriving DecidableEq, Repr

/-- `struct DmabufInternal`: the shared buffer descriptor. -/
structure DmabufInternal where
  planes : List Plane
  size : Size
  format : Fourcc
  flags : DmabufFlags
deriving DecidableEq, Repr

/-- `struct DmabufBuilder`: mutable accumulator around a `DmabufInternal`. -/
structure DmabufBuilder where
  internal : DmabufInternal
deriving DecidableEq, Repr

/-- The comparison key used by `build`: `sort_by_key(|plane| plane.plane_idx)`. -/
def planeLe (p q : Plane) : Prop := p.plane_idx ≤ q.plane_idx

instance : DecidableRel planeLe := fun p q => Nat.decLe p.plane_idx q.plane_idx

instance : IsTotal Plane planeLe := ⟨fun p q => Nat.le_total p.plane_idx q.plane_idx⟩

instance : IsTrans Plane planeLe := ⟨fun _ _ _ h h2 => Nat.le_trans h h2⟩

/-- `DmabufBuilder::add_plane`: rejects (returning `false`, builder untouched)
when the builder already holds `MAX_PLANES` planes, otherwise pushes the new
plane and returns `true`.  The `&mut self` mutation is modelled by returning
the updated builder next to the `bool`. -/
def DmabufBuilder.add_plane (b : DmabufBuilder) (fd : Nat) (idx : Nat)
    (offset : Nat) (stride : Nat) (modifier : Modifier) : Bool × DmabufBuilder :=
  if b.internal.planes.length = MAX_PLANES then
    (false, b)
  else
    (true, ⟨{ b.internal with
      planes := b.internal.planes ++
        [{ fd := fd, plane_idx := idx, offset := offset, stride := stride,
           modifier := modifier }] }⟩)

/-- `DmabufBuilder::build`, descriptor part: `None` if no planes were attached,
otherwise the internal descriptor with its planes stably sorted ascending by
`plane_idx` (Rust `sort_by_key` is a stable sort; any stable sort computes the
same list, here insertion sort). -/
def DmabufBuilder.build (b : DmabufBuilder) : Option DmabufInternal :=
  if b.internal.planes.isEmpty then none
  else some { b.internal with planes := List.insertionSort planeLe b.internal.planes }

/-- Modelled from the spec: the strong/weak reference-count state of the
`Arc<DmabufInternal>` heap (`Arc`/`Weak` are std library, outside this
repository).  Each allocation gets a fresh identity `id`; `strong i` is the
strong count of allocation `i`, `descs i` its descriptor while alive. -/
structure Store where
  strong : Nat → Nat
  descs : Nat → Option DmabufInternal
  next : Nat

/-- `struct Dmabuf(Arc<DmabufInternal>)`: a strong handle, identified by the
identity of the `Arc` allocation it points at. -/
structure Dmabuf where
  id : Nat
deriving DecidableEq, Repr

/-- `struct WeakDmabuf(Weak<DmabufInternal>)`: a weak handle. -/
structure WeakDmabuf where
  id : Nat
deriving DecidableEq, Repr

/-- `Arc::new`: allocate a fresh descriptor with strong count 1. -/
def Store.alloc (s : Store) (d : DmabufInternal) : Dmabuf × Store :=
  (⟨s.next⟩,
    { strong := fun i => if i = s.next then 1 else s.strong i,
      descs := fun i => if i = s.next then some d else s.descs i,
      next := s.next + 1 })

/-- `DmabufBuilder::build`, handle level: wrap the finalized descriptor in a
new strong handle (`Dmabuf(Arc::new(self.internal))`). -/
def DmabufBuilder.buildHandle (b : DmabufBuilder) (s : Store) :
    Option (Dmabuf × Store) :=
  (b.build).map fun d => s.alloc d

/-- `Dmabuf::clone` effect on the heap: atomic increment of the strong count. -/
def Store.clone (s : Store) (h : Dmabuf) : Store :=
  { s with strong := fun i => if i = h.id then s.strong i + 1 else s.strong i }

/-- `Dmabuf::clone`: the cloned handle points at the same allocation. -/
def Dmabuf.cloneHandle (h : Dmabuf) (s : Store) : Dmabuf × Store :=
  (⟨h.id⟩, s.clone h)

/-- Dropping a strong handle: atomic decrement; the decrement that reaches
zero destroys the descriptor (closing its fds). -/
def Store.dropHandle (s : Store) (h : Dmabuf) : Store :=
  { strong := fun i => if i = h.id then s.strong i - 1 else s.strong i,
    descs := fun i =>
      if i = h.id ∧ s.strong h.id = 1 then none else s.descs i,
    next := s.next }

/-- `Dmabuf::weak`: `Arc::downgrade`, a weak handle at the same allocation. -/
def Dmabuf.weak (h : Dmabuf) : WeakDmabuf := ⟨h.id⟩

/-- `WeakDmabuf::upgrade`: `Weak::upgrade`, an atomic conditional increment
that succeeds iff the strong count is non-zero. -/
def Store.upgrade (s : Store) (w : WeakDmabuf) : Option Dmabuf × Store :=
  if s.strong w.id = 0 then (none, s)
  else (some ⟨w.id⟩,
    { s with strong := fun i => if i = w.id then s.strong i + 1 else s.strong i })

/-- `WeakDmabuf::is_gone`: `self.0.strong_count() == 0`. -/
def Store.is_gone (s : Store) (w : WeakDmabuf) : Bool :=
  s.strong w.id == 0

/-- `Dmabuf::builder`: an empty builder from explicit size/format/flags. -/
def Dmabuf.builder (size : Size) (format : Fourcc) (flags : DmabufFlags) :
    DmabufBuilder :=
  ⟨{ planes := [], size := size, format := format, flags := flags }⟩

/-- `Dmabuf::builder_from_buffer`: an empty builder copying size and format
code from an existing buffer-like value. -/
def Dmabuf.builder_from_buffer (src : DmabufInternal) (flags : DmabufFlags) :
    DmabufBuilder :=
  ⟨{ planes := [], size := src.size, format := src.format, flags := flags }⟩

/-- Arguments of one `add_plane` call. -/
structure PlaneArgs where
  fd : Nat
  idx : Nat
  offset : Nat
  stride : Nat
  modifier : Modifier
deriving DecidableEq, Repr

/-- A sequence of `add_plane` calls, discarding the returned `bool`s. -/
def DmabufBuilder.addAll (b : DmabufBuilder) (args : List PlaneArgs) :
    DmabufBuilder :=
  args.foldl (fun acc a => (acc.add_plane a.fd a.idx a.offset a.stride a.modifier).2) b

/-- Modelled from the spec: `Format` (external crate) pairs the descriptor's
FourCC code with the first plane's modifier. -/
structure Format where
  code : Fourcc
  modifier : Modifier
deriving DecidableEq, Repr

/-- `<Dmabuf as Buffer>::size`. -/
def DmabufInternal.bufferSize (d : DmabufInternal) : Size := d.size

/-- `<Dmabuf as Buffer>::format`: reads `self.0.planes[0].modifier`; the
fallible indexing is modelled through `head?` (`none` would be the
out-of-bounds panic). -/
def DmabufInternal.bufferFormat (d : DmabufInternal) : Option Format :=
  d.planes.head?.map fun p => { code := d.format, modifier := p.modifier }

/-- `Dmabuf::num_planes`. -/
def DmabufInternal.num_planes (d : DmabufInternal) : Nat := d.planes.length

/-- `Dmabuf::offsets`. -/
def DmabufInternal.offsets (d : DmabufInternal) : List Nat :=
  d.planes.map fun p => p.offset

/-- `Dmabuf::strides`. -/
def DmabufInternal.strides (d : DmabufInternal) : List Nat :=
  d.planes.map fun p => p.stride

/-- `Dmabuf::has_modifier`: `planes[0].modifier != Invalid && != Linear`; the
fallible `planes[0]` access is modelled through `head?`. -/
def DmabufInternal.has_modifier (d : DmabufInternal) : Option Bool :=
  d.planes.head?.map fun p =>
    decide (p.modifier ≠ Modifier.Invalid) && decide (p.modifier ≠ Modifier.Linear)

/-- `Dmabuf::y_inverted`: `flags.contains(DmabufFlags::Y_INVERT)`. -/
def DmabufInternal.y_inverted (d : DmabufInternal) : Bool :=
  d.flags % 2 = 1

/-- `impl AsDmabuf for Dmabuf`: `Ok(self.clone())` with the uninhabited
`Infallible` error type (modelled by `Empty`). -/
def Dmabuf.asDmabuf (h : Dmabuf) (s : Store) : Except Empty (Dmabuf × Store) :=
  Except.ok (h.cloneHandle s)

/-- The cause held by a type-erased adapter error: either the backend
allocation error or the export error (`Box<dyn Error>` in the source, a sum
here because the adapter only ever boxes these two). -/
inductive ErasedCause (ε φ : Type) : Type where
  | backendErr (e : ε) : ErasedCause ε φ
  | exportErr (f : φ) : ErasedCause ε φ
deriving DecidableEq, Repr

/-- `struct AnyError(Box<dyn Error>)`. -/
structure AnyError (ε φ : Type) : Type where
  cause : ErasedCause ε φ
deriving DecidableEq, Repr

/-- `impl Error for AnyError { fn source(&self) { Some(&*self.0) } }`: the
reported cause is exactly the wrapped error. -/
def AnyError.sourceErr {ε φ : Type} (a : AnyError ε φ) : Option (ErasedCause ε φ) :=
  some a.cause

/-- `DmabufAllocator::create_buffer`: delegate to the backend allocator, then
`export` the produced buffer; each failure is wrapped into `AnyError`.  The
backend call and the export function are parameters (the trait objects). -/
def DmabufAllocator.create_buffer {β δ ε φ : Type}
    (backendCreate : Except ε β) (exportFn : β → Except φ δ) :
    Except (AnyError ε φ) δ :=
  (backendCreate.mapError fun err => AnyError.mk (ErasedCause.backendErr err)) >>=
    fun b => (exportFn b).mapError fun err => AnyError.mk (ErasedCause.exportErr err)

/-- Modelled from the spec: one atomic reference-count operation on a single
descriptor (`Arc`/`Weak` atomics, std library).  An arbitrary interleaving of
threads performing these atomic operations is an arbitrary sequence of them. -/
inductive RcOp : Type where
  | cloneOp : RcOp
  | dropOp : RcOp
  | upgradeOp : RcOp
deriving DecidableEq, Repr

/-- Strong count of one descriptor plus how many times its destructor (which
closes every plane's fd) has run. -/
structure RcState where
  strong : Nat
  released : Nat
deriving DecidableEq, Repr

/-- One atomic step: clone/successful-upgrade increment a non-zero count,
drop decrements and, exactly when it moves the count from 1 to 0, runs the
release; operations on a dead descriptor (count 0) do nothing — a clone or
drop needs a live strong handle, and `Weak::upgrade` only increments from a
non-zero count. -/
def rcStep (s : RcState) : RcOp → RcState
  | RcOp.cloneOp => if 0 < s.strong then { s with strong := s.strong + 1 } else s
  | RcOp.dropOp =>
      if 0 < s.strong then
        { strong := s.strong - 1,
          released := if s.strong = 1 then s.released + 1 else s.released }
      else s
  | RcOp.upgradeOp => if 0 < s.strong then { s with strong := s.strong + 1 } else s

/-- Run a trace of atomic operations from the state just after `build`
(one strong handle, nothing released). -/
def rcRun (ops : List RcOp) : RcState :=
  ops.foldl rcStep { strong := 1, released := 0 }

/-- `impl PartialEq for Dmabuf`: `Arc::ptr_eq(&self.0, &other.0)` — equality
of the allocation identity. -/
def Dmabuf.ptr_eq (a b : Dmabuf) : Bool := a.id == b.id

/-! Concrete sample data used by the witnesses. -/

/-- A store with one live allocation (id 0, strong count 1). -/
def sampleStore : Store :=
  { strong := fun i => if i = 0 then 1 else 0,
    descs := fun _ => none,
    next := 1 }

/-- A builder holding a single plane. -/
def sampleBuilder1 : DmabufBuilder :=
  ((Dmabuf.builder ⟨1, 1⟩ 0 0).add_plane 3 0 0 16 Modifier.Linear).2

/-- The descriptor `sampleBuilder1.build` produces. -/
def sampleD1 : DmabufInternal :=
  { planes := [{ fd := 3, plane_idx := 0, offset := 0, stride := 16,
                 modifier := Modifier.Linear }],
    size := ⟨1, 1⟩, format := 0, flags := 0 }

/-- A builder filled to `MAX_PLANES`. -/
def sampleFull : DmabufBuilder :=
  ((((((Dmabuf.builder ⟨1920, 1080⟩ 875713089 0).add_plane 10 0 0 64
    Modifier.Linear).2.add_plane 11 1 0 64 Modifier.Linear).2).add_plane 12 2 0 64
    Modifier.Linear).2.add_plane 13 3 0 64 Modifier.Linear).2

/-! The claims. -/

/-- Claim C3: with exactly `MAX_PLANES` (4) planes held, `add_plane` returns
`false` and leaves the whole builder state unchanged; with fewer than 4 it
appends the given plane and returns `true`. -/
theorem add_plane_capacity (b : DmabufBuilder) (fd idx offset stride : Nat)
    (m : Modifier) :
    (b.internal.planes.length = MAX_PLANES →
      b.add_plane fd idx offset stride m = (false, b)) ∧
    (b.internal.planes.length < MAX_PLANES →
      b.add_plane fd idx offset stride m =
        (true, ⟨{ b.internal with planes := b.internal.planes ++
          [{ fd := fd, plane_idx := idx, offset := offset, stride := stride,
             modifier := m }] }⟩)) := by
  constructor
  · intro h
    simp [DmabufBuilder.add_plane, h]
  · intro h
    simp [DmabufBuilder.add_plane, Nat.ne_of_lt h]

/-- Witness for C3: a 5th `add_plane` on a full builder is rejected with the
builder intact, and an `add_plane` on a 1-plane builder appends. -/
theorem add_plane_capacity_witness :
    sampleFull.add_plane 14 4 0 64 Modifier.Invalid = (false, sampleFull) ∧
    sampleBuilder1.add_plane 5 1 0 32 Modifier.Linear =
      (true, ⟨{ sampleBuilder1.internal with planes :=
        sampleBuilder1.internal.planes ++
          [{ fd := 5, plane_idx := 1, offset := 0, stride := 32,
             modifier := Modifier.Linear }] }⟩) :=
  ⟨(add_plane_capacity sampleFull 14 4 0 64 Modifier.Invalid).1 (by decide),
   (add_plane_capacity sampleBuilder1 5 1 0 32 Modifier.Linear).2 (by decide)⟩

/-- Claim C2: `build` returns `none` iff the builder holds zero planes; with
at least one plane it returns a fresh strong handle (strong count 1) wrapping
the finalized descriptor. -/
theorem build_none_iff_no_planes (b : DmabufBuilder) (s : Store) :
    (b.buildHandle s = none ↔ b.internal.planes = []) ∧
    (b.internal.planes ≠ [] →
      ∀ d, b.build = some d →
        b.buildHandle s = some (s.alloc d) ∧
        (s.alloc d).2.strong (s.alloc d).1.id = 1 ∧
        (s.alloc d).2.descs (s.alloc d).1.id = some d) := by
  constructor
  · simp [DmabufBuilder.buildHandle, DmabufBuilder.build, List.isEmpty_iff]
  · intro _ d hd
    refine ⟨by simp [DmabufBuilder.buildHandle, hd], ?_, ?_⟩ <;>
      simp [Store.alloc]

/-- Witness for C2: a one-plane builder builds a live handle. -/
theorem build_none_iff_no_planes_witness :
    sampleBuilder1.buildHandle sampleStore = some (sampleStore.alloc sampleD1) ∧
    (sampleStore.alloc sampleD1).2.strong (sampleStore.alloc sampleD1).1.id = 1 ∧
    (sampleStore.alloc sampleD1).2.descs (sampleStore.alloc sampleD1).1.id =
      some sampleD1 :=
  (build_none_iff_no_planes sampleBuilder1 sampleStore).2 (by decide) sampleD1
    (by decide)

/-- Claim C8: a `Dmabuf` exporting itself through `AsDmabuf` cannot fail (the
result is always `ok`; the error type is the uninhabited `Infallible`) and
yields a handle with the same allocation identity, leaving the descriptor
untouched. -/
theorem export_self_identity (h : Dmabuf) (s : Store) :
    ∃ r : Dmabuf × Store, h.asDmabuf s = Except.ok r ∧ r.1 = h ∧
      r.1.ptr_eq h = true ∧ r.2.descs h.id = s.descs h.id := by
  refine ⟨h.cloneHandle s, rfl, rfl, ?_, ?_⟩
  · simp [Dmabuf.cloneHandle, Dmabuf.ptr_eq]
  · simp [Dmabuf.cloneHandle, Store.clone]

/-- Claim C6: the adapter first delegates to the backend and then exports;
a backend failure `E` surfaces as an erased error whose reported cause is
`E`, an export failure `F` as one whose reported cause is `F`, and when both
stages succeed the exported buffer is returned. -/
theorem adapter_error_causes {β δ ε φ : Type} (create : Except ε β)
    (exportFn : β → Except φ δ) :
    (∀ e, create = Except.error e →
      DmabufAllocator.create_buffer create exportFn =
        Except.error (AnyError.mk (ErasedCause.backendErr e)) ∧
      AnyError.sourceErr (AnyError.mk (ErasedCause.backendErr e) : AnyError ε φ) =
        some (ErasedCause.backendErr e)) ∧
    (∀ b f, create = Except.ok b → exportFn b = Except.error f →
      DmabufAllocator.create_buffer create exportFn =
        Except.error (AnyError.mk (ErasedCause.exportErr f)) ∧
      AnyError.sourceErr (AnyError.mk (ErasedCause.exportErr f) : AnyError ε φ) =
        some (ErasedCause.exportErr f)) ∧
    (∀ b d, create = Except.ok b → exportFn b = Except.ok d →
      DmabufAllocator.create_buffer create exportFn = Except.ok d) := by
  refine ⟨?_, ?_, ?_⟩
  · intro e he
    subst he
    exact ⟨rfl, rfl⟩
  · intro b f hb hf
    subst hb
    simp [DmabufAllocator.create_buffer, Except.mapError, hf, AnyError.sourceErr,
      Bind.bind, Except.bind]
  · intro b d hb hd
    subst hb
    simp [DmabufAllocator.create_buffer, Except.mapError, hd, Bind.bind,
      Except.bind]

/-- Witness for C6: a backend failing with sentinel 7 reports cause 7; a
successful backend whose export fails with sentinel 9 reports cause 9; a
fully successful pipeline returns the exported buffer. -/
theorem adapter_error_causes_witness :
    DmabufAllocator.create_buffer (Except.error 7 : Except Nat Nat)
      (fun b => (Except.ok (b + 1) : Except Nat Nat)) =
      Except.error (AnyError.mk (ErasedCause.backendErr 7)) ∧
    DmabufAllocator.create_buffer (Except.ok 3 : Except Nat Nat)
      (fun _ => (Except.error 9 : Except Nat Nat)) =
      Except.error (AnyError.mk (ErasedCause.exportErr 9)) ∧
    DmabufAllocator.create_buffer (Except.ok 3 : Except Nat Nat)
      (fun b => (Except.ok (b + 1) : Except Nat Nat)) = Except.ok 4 :=
  ⟨((adapter_error_causes (Except.error 7) (fun b => Except.ok (b + 1))).1 7
      rfl).1,
   ((adapter_error_causes (Except.ok 3) (fun _ => Except.error 9)).2.1 3 9
      rfl rfl).1,
   (adapter_error_causes (Except.ok 3) (fun b => Except.ok (b + 1))).2.2 3 4
      rfl rfl⟩

/-- The reference-count invariant: the destructor has run exactly when the
strong count is zero, and never more than once. -/
theorem rcStep_inv (s : RcState) (op : RcOp)
    (h : s.released = if s.strong = 0 then 1 else 0) :
    (rcStep s op).released = if (rcStep s op).strong = 0 then 1 else 0 := by
  cases op <;> simp only [rcStep] <;> split_ifs at * <;> simp_all <;> omega

/-- The invariant holds along every trace from the post-`build` state. -/
theorem rcRun_inv (ops : List RcOp) :
    (rcRun ops).released = if (rcRun ops).strong = 0 then 1 else 0 := by
  suffices h : ∀ (s : RcState), s.released = (if s.strong = 0 then 1 else 0) →
      (ops.foldl rcStep s).released =
        if (ops.foldl rcStep s).strong = 0 then 1 else 0 from
    h { strong := 1, released := 0 } (by simp)
  induction ops with
  | nil => intro s hs; exact hs
  | cons op rest ih => intro s hs; exact ih _ (rcStep_inv s op hs)

/-- Claim C10: along every interleaving of atomic clone/drop/upgrade
operations, the destructor (which closes every plane's fd) runs at most once,
it has run exactly once whenever the strong count has reached zero (exactly
one drop observes the transition to zero), and no operation — in particular
no `upgrade` — can revive a descriptor whose count reached zero. -/
theorem release_exactly_once (ops : List RcOp) :
    (rcRun ops).released ≤ 1 ∧
    ((rcRun ops).strong = 0 → (rcRun ops).released = 1) ∧
    (0 < (rcRun ops).strong → (rcRun ops).released = 0) ∧
    (∀ op, (rcRun ops).strong = 0 → (rcStep (rcRun ops) op).strong = 0) := by
  have h := rcRun_inv ops
  refine ⟨?_, ?_, ?_, ?_⟩
  · split_ifs at h <;> omega
  · intro h0; rwa [if_pos h0] at h
  · intro h0; rw [if_neg (by omega)] at h; exact h
  · intro op h0
    cases op <;> simp [rcStep, h0]

/-- Witness for C10: the trace clone-drop-drop ends with the count at zero
and the destructor run exactly once. -/
theorem release_exactly_once_witness :
    (rcRun [RcOp.cloneOp, RcOp.dropOp, RcOp.dropOp]).strong = 0 ∧
    (rcRun [RcOp.cloneOp, RcOp.dropOp, RcOp.dropOp]).released = 1 ∧
    (rcStep (rcRun [RcOp.cloneOp, RcOp.dropOp, RcOp.dropOp])
      RcOp.upgradeOp).strong = 0 :=
  ⟨by decide,
   (release_exactly_once [RcOp.cloneOp, RcOp.dropOp, RcOp.dropOp]).2.1
     (by decide),
   (release_exactly_once [RcOp.cloneOp, RcOp.dropOp, RcOp.dropOp]).2.2.2
     RcOp.upgradeOp (by decide)⟩

/-- Filtering the planes of one key out of an `orderedInsert`: the element is
inserted strictly after the keys smaller than its own, so among equal keys it
lands last — the filtered sublist gains `a` at the front exactly when `a` has
the key. -/
theorem filter_orderedInsert (k : Nat) (a : Plane) (l : List Plane) :
    (List.orderedInsert planeLe a l).filter (fun p => p.plane_idx == k) =
      if a.plane_idx = k then
        a :: l.filter (fun p => p.plane_idx == k)
      else l.filter (fun p => p.plane_idx == k) := by
  induction l with
  | nil =>
    by_cases hak : a.plane_idx = k <;>
      simp [List.orderedInsert, List.filter_cons, hak]
  | cons b t ih =>
    by_cases hab : planeLe a b
    · rw [List.orderedInsert_of_le planeLe t hab]
      by_cases hak : a.plane_idx = k <;> simp [List.filter_cons, hak]
    · have hstep : List.orderedInsert planeLe a (b :: t) =
          b :: List.orderedInsert planeLe a t := by
        simp [List.orderedInsert, hab]
      rw [hstep]
      have hba : b.plane_idx < a.plane_idx := by
        simpa [planeLe, Nat.not_le] using hab
      by_cases hak : a.plane_idx = k
      · have hbk : ¬ b.plane_idx = k := by omega
        simp [List.filter_cons, hak, hbk, ih]
      · by_cases hbk : b.plane_idx = k <;>
          simp [List.filter_cons, hak, hbk, ih]

/-- Stability of the sort `build` performs: filtering the planes of any one
`plane_idx` out of the sorted list gives them back in insertion order. -/
theorem filter_insertionSort (k : Nat) (l : List Plane) :
    (List.insertionSort planeLe l).filter (fun p => p.plane_idx == k) =
      l.filter (fun p => p.plane_idx == k) := by
  induction l with
  | nil => rfl
  | cons a t ih =>
    show (List.orderedInsert planeLe a
      (List.insertionSort planeLe t)).filter (fun p => p.plane_idx == k) = _
    rw [filter_orderedInsert, ih]
    by_cases hak : a.plane_idx = k <;> simp [List.filter_cons, hak]

/-- Claim C1: for every builder with 1 to 4 planes, added with arbitrary
indices in arbitrary order, `build` succeeds with the same multiset of
planes, sorted ascending by `plane_idx`, and stably so: the planes of each
individual `plane_idx` keep their insertion order. -/
theorem build_sorts_planes_stably (b : DmabufBuilder)
    (h1 : 1 ≤ b.internal.planes.length)
    (h4 : b.internal.planes.length ≤ MAX_PLANES) :
    b.build.isSome = true ∧
    ∀ d, b.build = some d →
      d.planes.Perm b.internal.planes ∧
      List.Sorted planeLe d.planes ∧
      ∀ k, d.planes.filter (fun p => p.plane_idx == k) =
        b.internal.planes.filter (fun p => p.plane_idx == k) := by
  have hne : b.internal.planes.isEmpty = false := by
    cases hpl : b.internal.planes
    · rw [hpl] at h1; simp at h1
    · simp [hpl]
  constructor
  · simp [DmabufBuilder.build, hne]
  · intro d hb
    unfold DmabufBuilder.build at hb
    rw [hne] at hb
    simp only [Bool.false_eq_true, if_false, Option.some.injEq] at hb
    subst hb
    refine ⟨List.perm_insertionSort planeLe _,
      List.sorted_insertionSort planeLe _, fun k => filter_insertionSort k _⟩

/-- A builder whose three planes arrive with indices 2, 0, 1. -/
def sampleBuilder3 : DmabufBuilder :=
  ((((Dmabuf.builder ⟨1920, 1080⟩ 875713089 0).add_plane 10 2 0 64
    Modifier.Linear).2.add_plane 11 0 128 64 Modifier.Linear).2.add_plane 12 1
    256 64 Modifier.Linear).2

/-- The descriptor `sampleBuilder3.build` produces: planes re-sorted to
indices 0, 1, 2. -/
def sampleD3 : DmabufInternal :=
  { planes :=
      [{ fd := 11, plane_idx := 0, offset := 128, stride := 64,
         modifier := Modifier.Linear },
       { fd := 12, plane_idx := 1, offset := 256, stride := 64,
         modifier := Modifier.Linear },
       { fd := 10, plane_idx := 2, offset := 0, stride := 64,
         modifier := Modifier.Linear }],
    size := ⟨1920, 1080⟩, format := 875713089, flags := 0 }

/-- Witness for C1: the builder fed indices 2, 0, 1 builds the descriptor
with planes sorted 0, 1, 2, and the index-2 plane (fd 10) is recovered by the
filter in insertion order. -/
theorem build_sorts_planes_stably_witness :
    sampleBuilder3.build.isSome = true ∧
    List.Sorted planeLe sampleD3.planes ∧
    sampleD3.planes.filter (fun p => p.plane_idx == 2) =
      sampleBuilder3.internal.planes.filter (fun p => p.plane_idx == 2) := by
  have h := build_sorts_planes_stably sampleBuilder3 (by decide) (by decide)
  exact ⟨h.1, (h.2 sampleD3 (by decide)).2.1, (h.2 sampleD3 (by decide)).2.2 2⟩

/-- Claim C4: a weak handle obtained from `h` upgrades to `h` itself (same
allocation, hence same descriptor) while the strong count is positive; once
it is zero, `upgrade` returns `none` and `is_gone` is `true`; and `is_gone`
is `true` exactly when no strong references remain. -/
theorem weak_upgrade_liveness (s : Store) (h : Dmabuf) :
    (0 < s.strong h.id → (s.upgrade h.weak).1 = some h) ∧
    (s.strong h.id = 0 →
      (s.upgrade h.weak).1 = none ∧ s.is_gone h.weak = true) ∧
    (s.is_gone h.weak = true ↔ s.strong h.id = 0) := by
  refine ⟨?_, ?_, ?_⟩
  · intro hpos
    simp [Store.upgrade, Dmabuf.weak, Nat.pos_iff_ne_zero.mp hpos]
  · intro h0
    simp [Store.upgrade, Store.is_gone, Dmabuf.weak, h0]
  · simp [Store.is_gone, Dmabuf.weak]

/-- Witness for C4: in `sampleStore` the allocation 0 is live, so its weak
handle upgrades to it; allocation 5 has no strong references, so its weak
handle fails to upgrade and reports gone. -/
theorem weak_upgrade_liveness_witness :
    (sampleStore.upgrade (Dmabuf.weak ⟨0⟩)).1 = some ⟨0⟩ ∧
    (sampleStore.upgrade (Dmabuf.weak ⟨5⟩)).1 = none ∧
    sampleStore.is_gone (Dmabuf.weak ⟨5⟩) = true :=
  ⟨(weak_upgrade_liveness sampleStore ⟨0⟩).1 (by decide),
   (weak_upgrade_liveness sampleStore ⟨5⟩).2.1 (by decide)⟩

/-- Claim C5: handle equality is identity of the allocation, not content —
two `build` calls on identical builder input yield two handles that compare
unequal (`Arc::ptr_eq` is `false`), while a clone of a handle compares equal
to the handle it was cloned from. -/
theorem identity_based_equality (b b2 : DmabufBuilder) (s : Store)
    (d : DmabufInternal) (hsame : b2 = b) (hd : b.build = some d) :
    b.buildHandle s = some (s.alloc d) ∧
    b2.buildHandle (s.alloc d).2 = some ((s.alloc d).2.alloc d) ∧
    (s.alloc d).1.ptr_eq ((s.alloc d).2.alloc d).1 = false ∧
    (s.alloc d).1 ≠ ((s.alloc d).2.alloc d).1 ∧
    ∀ (h : Dmabuf) (t : Store),
      (h.cloneHandle t).1.ptr_eq h = true ∧ (h.cloneHandle t).1 = h := by
  subst hsame
  refine ⟨by simp [DmabufBuilder.buildHandle, hd],
    by simp [DmabufBuilder.buildHandle, hd], ?_, ?_, ?_⟩
  · simp [Store.alloc, Dmabuf.ptr_eq]
  · simp [Store.alloc]
  · intro h t
    exact ⟨by simp [Dmabuf.cloneHandle, Dmabuf.ptr_eq], rfl⟩

/-- Witness for C5: building `sampleBuilder1` twice in a row gives two
handles with distinct identities, and a clone of the handle with id 7
compares equal to it. -/
theorem identity_based_equality_witness :
    (sampleStore.alloc sampleD1).1.ptr_eq
      ((sampleStore.alloc sampleD1).2.alloc sampleD1).1 = false ∧
    ((⟨7⟩ : Dmabuf).cloneHandle sampleStore).1.ptr_eq ⟨7⟩ = true := by
  have h := identity_based_equality sampleBuilder1 sampleBuilder1 sampleStore
    sampleD1 rfl (by decide)
  exact ⟨h.2.2.1, (h.2.2.2.2 ⟨7⟩ sampleStore).1⟩

/-- Unfolding one `add_plane` call of a call sequence. -/
theorem DmabufBuilder.addAll_cons (b : DmabufBuilder) (a : PlaneArgs)
    (rest : List PlaneArgs) :
    b.addAll (a :: rest) =
      ((b.add_plane a.fd a.idx a.offset a.stride a.modifier).2).addAll rest :=
  rfl

/-- `add_plane` never grows a builder beyond `MAX_PLANES`, so every builder
reachable from an empty one stays within the bound. -/
theorem addAll_length_le (args : List PlaneArgs) (b : DmabufBuilder)
    (hb : b.internal.planes.length ≤ MAX_PLANES) :
    (b.addAll args).internal.planes.length ≤ MAX_PLANES := by
  induction args generalizing b with
  | nil => exact hb
  | cons a rest ih =>
    rw [DmabufBuilder.addAll_cons]
    apply ih
    by_cases h : b.internal.planes.length = MAX_PLANES
    · simpa [DmabufBuilder.add_plane, h] using hb
    · simp only [DmabufBuilder.add_plane, if_neg h, List.length_append,
        List.length_cons, List.length_nil]
      omega

/-- Claim C7: every descriptor built from an (arbitrarily long) sequence of
`add_plane` calls on a fresh builder holds between 1 and `MAX_PLANES` planes,
so the first-plane accesses of `format` and `has_modifier` are in bounds
(they yield `some`), and neither cloning a handle nor upgrading a weak handle
alters any descriptor (in particular its plane list). -/
theorem built_planes_in_bounds (size : Size) (format : Fourcc)
    (flags : DmabufFlags) (args : List PlaneArgs) (d : DmabufInternal)
    (hb : ((Dmabuf.builder size format flags).addAll args).build = some d) :
    (1 ≤ d.planes.length ∧ d.planes.length ≤ MAX_PLANES) ∧
    d.bufferFormat.isSome = true ∧
    d.has_modifier.isSome = true ∧
    (∀ (s : Store) (h : Dmabuf), (s.clone h).descs = s.descs) ∧
    (∀ (s : Store) (w : WeakDmabuf), (s.upgrade w).2.descs = s.descs) := by
  have hlen : ((Dmabuf.builder size format flags).addAll
      args).internal.planes.length ≤ MAX_PLANES :=
    addAll_length_le args _ (by simp [Dmabuf.builder])
  unfold DmabufBuilder.build at hb
  by_cases hne : ((Dmabuf.builder size format flags).addAll
      args).internal.planes.isEmpty
  · rw [if_pos hne] at hb
    exact absurd hb (by simp)
  · rw [if_neg hne] at hb
    obtain rfl := Option.some.inj hb
    have hlen2 : 1 ≤ ((Dmabuf.builder size format flags).addAll
        args).internal.planes.length := by
      cases hpl : ((Dmabuf.builder size format flags).addAll
        args).internal.planes
      · rw [hpl] at hne; simp at hne
      · simp [hpl]
    have hsorted : (List.insertionSort planeLe ((Dmabuf.builder size format
        flags).addAll args).internal.planes).length =
        ((Dmabuf.builder size format flags).addAll
          args).internal.planes.length :=
      List.length_insertionSort planeLe _
    refine ⟨⟨by simpa [hsorted], by simpa [hsorted]⟩, ?_, ?_, ?_, ?_⟩
    · simp only [DmabufInternal.bufferFormat, Option.isSome_map']
      rw [List.head?_isSome]
      intro hnil
      rw [← List.length_eq_zero] at hnil
      omega
    · simp only [DmabufInternal.has_modifier, Option.isSome_map']
      rw [List.head?_isSome]
      intro hnil
      rw [← List.length_eq_zero] at hnil
      omega
    · intro s h; rfl
    · intro s w
      unfold Store.upgrade
      by_cases h0 : s.strong w.id = 0
      · rw [if_pos h0]
      · rw [if_neg h0]


/-- Witness for C7: the three-plane build is in bounds and its first-plane
accessors succeed; cloning and upgrading in `sampleStore` change no
descriptor. -/
theorem built_planes_in_bounds_witness :
    (1 ≤ sampleD3.planes.length ∧ sampleD3.planes.length ≤ MAX_PLANES) ∧
    sampleD3.bufferFormat.isSome = true ∧
    sampleD3.has_modifier.isSome = true ∧
    (sampleStore.clone ⟨0⟩).descs = sampleStore.descs ∧
    (sampleStore.upgrade ⟨0⟩).2.descs = sampleStore.descs := by
  have h := built_planes_in_bounds ⟨1920, 1080⟩ 875713089 0
    [⟨10, 2, 0, 64, Modifier.Linear⟩, ⟨11, 0, 128, 64, Modifier.Linear⟩,
     ⟨12, 1, 256, 64, Modifier.Linear⟩] sampleD3 (by decide)
  exact ⟨h.1, h.2.1, h.2.2.1, h.2.2.2.1 sampleStore ⟨0⟩, h.2.2.2.2 sampleStore ⟨0⟩⟩

/-- A one-plane builder whose plane carries a vendor-specific modifier. -/
def sampleBuilderV : DmabufBuilder :=
  ((Dmabuf.builder ⟨4, 4⟩ 0 0).add_plane 8 0 0 16 (Modifier.Vendor 5)).2

/-- The descriptor `sampleBuilderV.build` produces. -/
def sampleDV : DmabufInternal :=
  { planes := [{ fd := 8, plane_idx := 0, offset := 0, stride := 16,
                 modifier := Modifier.Vendor 5 }],
    size := ⟨4, 4⟩, format := 0, flags := 0 }

/-- Claim C9: on a built descriptor, `has_modifier` answers `true` exactly
when the modifier of the first plane (after the build-time sort) is neither
the `Invalid` nor the `Linear` sentinel. -/
theorem has_modifier_iff_sentinels (b : DmabufBuilder) (d : DmabufInternal)
    (p : Plane) (hb : b.build = some d) (hp : d.planes.head? = some p) :
    (d.has_modifier = some true ↔
      (p.modifier ≠ Modifier.Invalid ∧ p.modifier ≠ Modifier.Linear)) := by
  simp [DmabufInternal.has_modifier, hp]

/-- Witness for C9: the vendor-modifier build answers `true`. -/
theorem has_modifier_iff_sentinels_witness :
    sampleDV.has_modifier = some true :=
  (has_modifier_iff_sentinels sampleBuilderV sampleDV
    { fd := 8, plane_idx := 0, offset := 0, stride := 16,
      modifier := Modifier.Vendor 5 } (by decide) (by decide)).mpr (by decide)

end Smithay
